import Mathlib

/-!
Shallow embedding of the `query` crate's SQL assembly engine
(`src/sort.rs` and `src/sql.rs`).

Rust strings are modelled as Lean `String`; Rust `Vec` as `List`;
`HashMap<&str, &str>` as an association list with first-match lookup;
`Option`/`Result` as `Option`/`Except`.  The crate-root items that are
not under `src/` (`UrlQuery`, `Filter`, `ParseError`, the limit/offset
checks) and the external `convert_case` crate are modelled from the
specification; each such definition carries a doc comment saying so.
-/

namespace Query

/-- Modelled from the spec: the error kinds surfaced by the core
(crate-root `ParseError`, not under `src/`).  §7 lists exactly
`InvalidSort` (sort token has no separator) and `InvalidSortBy`
(direction token is not `asc`/`desc`). -/
inductive ParseError where
  | InvalidSort
  | InvalidSortBy
deriving DecidableEq, Repr

/-- Direction of a sort directive (`src/sort.rs`, `SortBy`). -/
inductive SortBy where
  | ASC
  | DESC
deriving DecidableEq, Repr

/-- `SortBy::from_str` (`src/sort.rs` lines 63-73): accepts exactly the
lowercase strings `asc` and `desc`, anything else is `InvalidSortBy`. -/
def SortBy.from_str (s : String) : Except ParseError SortBy :=
  if s = "asc" then .ok .ASC
  else if s = "desc" then .ok .DESC
  else .error .InvalidSortBy

/-- `SortBy::as_str` (`src/sort.rs` lines 76-81). -/
def SortBy.as_str : SortBy → String
  | .ASC => "ASC"
  | .DESC => "DESC"

/-- The sort directive (`src/sort.rs`, `struct Sort`).  Named `SortDir`
here because `Sort` is a Lean keyword. -/
structure SortDir where
  field : String
  sort_by : SortBy
deriving DecidableEq, Repr

/-- Rust `str::split_once` with a single-character pattern: splits at the
first occurrence of `sep`, returning the (separator-free) part before it
and everything after it; `none` when `sep` does not occur. -/
def splitOnceChar (sep : Char) : List Char → Option (List Char × List Char)
  | [] => none
  | c :: rest =>
    if c = sep then some ([], rest)
    else
      match splitOnceChar sep rest with
      | some (a, b) => some (c :: a, b)
      | none => none

/-- `Sort::new` (`src/sort.rs` lines 15-24): split the input on the first
hyphen; no hyphen is `InvalidSort`; the part after the hyphen goes through
`SortBy::from_str`, whose error propagates. -/
def SortDir.new (s : String) : Except ParseError SortDir :=
  match splitOnceChar '-' s.data with
  | none => .error .InvalidSort
  | some (f, rest) =>
    match SortBy.from_str (String.mk rest) with
    | .error e => .error e
    | .ok sb => .ok ⟨String.mk f, sb⟩

/-- `Sort::to_string` (`src/sort.rs` lines 26-33): field, a space, the
upper-cased direction. -/
def SortDir.to_string (s : SortDir) : String :=
  let sort := ""
  let sort := sort ++ s.field
  let sort := sort ++ " "
  sort ++ s.sort_by.as_str

/-- Modelled from the external `convert_case` crate: a case-conversion
mode is modelled as the string conversion it performs. -/
def Case : Type := String → String

/-- Modelled from the external `convert_case` crate: `Case::Snake` for
ASCII camelCase identifiers — every uppercase letter is replaced by an
underscore followed by its lowercase form (`userId` becomes `user_id`). -/
def snakeCase (s : String) : String :=
  String.mk (s.data.flatMap (fun c => if c.isUpper then ['_', c.toLower] else [c]))

/-- `Sort::to_sql` (`src/sort.rs` lines 35-44): appends the
case-converted field (snake_case when no mode is given), a space, and the
upper-cased direction to the given buffer. -/
def SortDir.to_sql (s : SortDir) (sort : String) (caseMode : Option Case) : String :=
  let sort :=
    match caseMode with
    | some c => sort ++ c s.field
    | none => sort ++ snakeCase s.field
  let sort := sort ++ " "
  sort ++ s.sort_by.as_str

/-- `Sort::to_sql_map_table` (`src/sort.rs` lines 46-54): optional
`table.` qualifier (emitted raw), then `to_sql`. -/
def SortDir.to_sql_map_table (s : SortDir) (table : Option String) (caseMode : Option Case) : String :=
  let sort :=
    match table with
    | some t => "" ++ t ++ "."
    | none => ""
  s.to_sql sort caseMode

/-- The database dialect (`src/sql.rs` lines 7-10, `enum Database`). -/
inductive Database where
  | Postgres
  | MySQL
deriving DecidableEq, Repr

/-- Modelled from the spec: §4.2 `PlaceholderFor(position)` — Postgres
emits `"$" + position` (1-based), MySQL emits the literal `"?"`
regardless of position.  The dialect-specific placeholder logic lives in
the crate-root `Filter` renderer, which is not under `src/`. -/
def placeholderFor (db : Database) (pos : Nat) : String :=
  match db with
  | .Postgres => "$" ++ toString pos
  | .MySQL => "?"

/-- Modelled from the spec: a filter of the structured query model
(crate-root, not under `src/`).  §6: each filter exposes its own
`(field, value)` pair as strings; its operator vocabulary is external,
so the operator's SQL fragment is carried as an opaque string. -/
structure Filter where
  field : String
  op : String
  value : String
deriving DecidableEq, Repr

/-- Modelled from the spec: the per-filter predicate renderer
(`Filter::to_sql_map_table`, crate-root, not under `src/`).  Per §4.3 and
§6 it emits the optional `table.` qualifier, the case-converted field
(snake_case when no mode is given), the operator, and the dialect's
placeholder for the given bind position (§4.2), e.g. `user_id = $1`. -/
def Filter.to_sql_map_table (f : Filter) (pos : Nat) (table : Option String)
    (caseMode : Option Case) (db : Database) : String :=
  (match table with
   | some t => t ++ "."
   | none => "") ++
  (match caseMode with
   | some c => c f.field
   | none => snakeCase f.field) ++
  " " ++ f.op ++ " " ++ placeholderFor db pos

/-- Modelled from the spec: the structured query model (crate-root
`UrlQuery`, not under `src/`).  §6: an ordered filter list, an optional
group field, an optional sort directive, and limit/offset accessors that
return a validated textual representation or fail.  The validation rule
itself is not specified, so the model carries each check's outcome
(`some` validated text, or `none` for absent/invalid). -/
structure UrlQuery where
  filters : List Filter
  group : Option String
  sort : Option SortDir
  limit_check : Option String
  offset_check : Option String

/-- Modelled from the spec: `UrlQuery::check_limit` (crate-root). -/
def UrlQuery.check_limit (q : UrlQuery) : Option String :=
  q.limit_check

/-- Modelled from the spec: `UrlQuery::check_offset` (crate-root). -/
def UrlQuery.check_offset (q : UrlQuery) : Option String :=
  q.offset_check

/-- The query builder state (`src/sql.rs` lines 29-36).  The Rust
`HashMap<&str, &str>` is modelled as an association list with
first-match lookup. -/
structure QueryBuilder where
  url_query : UrlQuery
  database : Database
  map_columns : List (String × String)
  shift_bind : Nat
  convert_case : Option Case
  sql : String

/-- `HashMap::get` on the association-list model of `map_columns`. -/
def mapGet (m : List (String × String)) (k : String) : Option String :=
  match m with
  | [] => none
  | (a, b) :: rest => if a = k then some b else mapGet rest k

/-- Rust `Vec::join(sep)`: elements interleaved with the separator. -/
def joinStr (sep : String) : List String → String
  | [] => ""
  | [x] => x
  | x :: y :: rest => x ++ sep ++ joinStr sep (y :: rest)

/-- `gen_sql_select` (`src/sql.rs` lines 198-205). -/
def gen_sql_select (table : String) (columns : List String) : String :=
  let sql := "SELECT "
  let columnsStr := joinStr ", " columns
  let sql := sql ++ columnsStr
  let sql := sql ++ " FROM "
  sql ++ table

/-- `QueryBuilder::new` (`src/sql.rs` lines 48-59). -/
def QueryBuilder.new (table : String) (columns : List String) (url_query : UrlQuery) : QueryBuilder :=
  { url_query := url_query
    database := .Postgres
    map_columns := []
    shift_bind := 0
    convert_case := none
    sql := gen_sql_select table columns }

/-- `QueryBuilder::from_str` (`src/sql.rs` lines 70-79). -/
def QueryBuilder.from_str (sql : String) (url_query : UrlQuery) : QueryBuilder :=
  { url_query := url_query
    database := .Postgres
    map_columns := []
    shift_bind := 0
    convert_case := none
    sql := sql }

/-- `QueryBuilder::set_database` (`src/sql.rs` lines 82-86). -/
def QueryBuilder.set_database (b : QueryBuilder) (database : Database) : QueryBuilder :=
  { b with database := database }

/-- `QueryBuilder::append` (`src/sql.rs` lines 89-94): a space, then the
raw fragment. -/
def QueryBuilder.append (b : QueryBuilder) (sql : String) : QueryBuilder :=
  { b with sql := b.sql ++ " " ++ sql }

/-- `QueryBuilder::map_columns` (`src/sql.rs` lines 97-101); named
`set_map_columns` here because the field has the same name. -/
def QueryBuilder.set_map_columns (b : QueryBuilder) (m : List (String × String)) : QueryBuilder :=
  { b with map_columns := m }

/-- `QueryBuilder::shift_bind` (`src/sql.rs` lines 105-109); named
`set_shift_bind` here because the field has the same name. -/
def QueryBuilder.set_shift_bind (b : QueryBuilder) (x : Nat) : QueryBuilder :=
  { b with shift_bind := x }

/-- `QueryBuilder::convert_case` (`src/sql.rs` lines 111-115); named
`set_convert_case` here because the field has the same name. -/
def QueryBuilder.set_convert_case (b : QueryBuilder) (c : Case) : QueryBuilder :=
  { b with convert_case := some c }

/-- The filter loop of `QueryBuilder::append_where` (`src/sql.rs` lines
121-132): for each filter, resolve the qualifying table, render the
predicate at bind position `args.len() + shift_bind + 1`, and push the
filter's `(field, value)` pair onto the argument list. -/
def whereLoop (b : QueryBuilder) :
    List Filter → List String → List (String × String) →
      List String × List (String × String)
  | [], filterv, args => (filterv, args)
  | f :: rest, filterv, args =>
    whereLoop b rest
      (filterv ++ [f.to_sql_map_table (args.length + b.shift_bind + 1)
        (mapGet b.map_columns f.field) b.convert_case b.database])
      (args ++ [(f.field, f.value)])

/-- `QueryBuilder::append_where` (`src/sql.rs` lines 118-142): run the
filter loop, join the rendered predicates with `" AND "`, and append
`" WHERE "` plus the joined predicates iff at least one filter exists. -/
def QueryBuilder.append_where (b : QueryBuilder) : QueryBuilder × List (String × String) :=
  let p := whereLoop b b.url_query.filters [] []
  let filterv := p.1
  let args := p.2
  let filter := joinStr " AND " filterv
  if filterv.length > 0 then
    ({ b with sql := b.sql ++ " WHERE " ++ filter }, args)
  else
    (b, args)

/-- `QueryBuilder::append_group` (`src/sql.rs` lines 145-161): no-op
without a group field; otherwise `" GROUP BY "`, the optional raw
`table.` qualifier, then the group field — case-converted only when an
explicit mode is set, emitted unconverted otherwise. -/
def QueryBuilder.append_group (b : QueryBuilder) : QueryBuilder :=
  match b.url_query.group with
  | none => b
  | some group =>
    let sql := b.sql ++ " GROUP BY "
    let sql :=
      match mapGet b.map_columns group with
      | some t => sql ++ t ++ "."
      | none => sql
    let sql :=
      match b.convert_case with
      | some c => sql ++ c group
      | none => sql ++ group
    { b with sql := sql }

/-- `QueryBuilder::append_sort` (`src/sql.rs` lines 164-174): no-op
without a sort directive; otherwise `" ORDER BY "` plus the directive's
`to_sql_map_table` rendering. -/
def QueryBuilder.append_sort (b : QueryBuilder) : QueryBuilder :=
  match b.url_query.sort with
  | none => b
  | some srt =>
    { b with sql := b.sql ++ " ORDER BY " ++
        srt.to_sql_map_table (mapGet b.map_columns srt.field) b.convert_case }

/-- `append_limit` (`src/sql.rs` lines 207-210). -/
def append_limit (sql limit : String) : String :=
  sql ++ " LIMIT " ++ limit

/-- `append_offset` (`src/sql.rs` lines 212-215). -/
def append_offset (sql offset : String) : String :=
  sql ++ " OFFSET " ++ offset

/-- `QueryBuilder::build` (`src/sql.rs` lines 177-195): WHERE (capturing
the bind arguments), then GROUP BY, then ORDER BY; `" LIMIT "` only when
the limit check succeeds, and `" OFFSET "` only inside that success
branch when the offset check also succeeds. -/
def QueryBuilder.build (b : QueryBuilder) : String × List (String × String) :=
  let p := b.append_where
  let b1 := p.1
  let args := p.2
  let b2 := b1.append_group
  let b3 := b2.append_sort
  let sql :=
    match b3.url_query.check_limit with
    | some limit =>
      let sql := append_limit b3.sql limit
      match b3.url_query.check_offset with
      | some off => append_offset sql off
      | none => sql
    | none => b3.sql
  (sql, args)

/-- The rendered predicate list, indexed form: the filter at (0-based)
index `n` of the sublist is rendered at bind position
`k + n + shift_bind + 1`. -/
def renderFilters (b : QueryBuilder) : Nat → List Filter → List String
  | _, [] => []
  | k, f :: rest =>
    f.to_sql_map_table (k + b.shift_bind + 1)
        (mapGet b.map_columns f.field) b.convert_case b.database
      :: renderFilters b (k + 1) rest

/-- The list of rendered WHERE predicates of a builder. -/
def QueryBuilder.whereList (b : QueryBuilder) : List String :=
  renderFilters b 0 b.url_query.filters

/-- The WHERE fragment `build` contributes: empty iff no filters. -/
def whereClause (b : QueryBuilder) : String :=
  if b.url_query.filters.isEmpty then ""
  else " WHERE " ++ joinStr " AND " b.whereList

/-- The GROUP BY fragment `build` contributes: empty iff no group. -/
def groupClause (b : QueryBuilder) : String :=
  match b.url_query.group with
  | none => ""
  | some group =>
    " GROUP BY " ++
      ((match mapGet b.map_columns group with
        | some t => t ++ "."
        | none => "") ++
       (match b.convert_case with
        | some c => c group
        | none => group))

/-- The ORDER BY fragment `build` contributes: empty iff no sort. -/
def sortClause (b : QueryBuilder) : String :=
  match b.url_query.sort with
  | none => ""
  | some srt =>
    " ORDER BY " ++ srt.to_sql_map_table (mapGet b.map_columns srt.field) b.convert_case

/-- The LIMIT fragment `build` contributes: empty iff the limit check
fails. -/
def limitClause (b : QueryBuilder) : String :=
  match b.url_query.check_limit with
  | none => ""
  | some limit => " LIMIT " ++ limit

/-- The OFFSET fragment `build` contributes: empty unless both the limit
check and the offset check succeed. -/
def offsetClause (b : QueryBuilder) : String :=
  match b.url_query.check_limit, b.url_query.check_offset with
  | some _, some off => " OFFSET " ++ off
  | _, _ => ""

/-- A concrete query model with two filters, used as evaluation input. -/
def egQuery : UrlQuery :=
  { filters := [Filter.mk "userId" "=" "1", Filter.mk "id" "=" "2"]
    group := none
    sort := some ⟨"price", SortBy.DESC⟩
    limit_check := some "10"
    offset_check := some "0" }

/-- A concrete builder over `egQuery` with a bind shift of 1. -/
def egBuilder : QueryBuilder :=
  (QueryBuilder.from_str "SELECT id, status FROM orders" egQuery).set_shift_bind 1

/-- A concrete query model with a group field and a sort directive but no
explicit case-conversion mode, used as evaluation input. -/
def groupCaseQuery : UrlQuery :=
  { filters := []
    group := some "userId"
    sort := some ⟨"createdAt", SortBy.DESC⟩
    limit_check := none
    offset_check := none }

/-- A concrete builder over `groupCaseQuery`; `from_str` leaves
`convert_case` unset. -/
def groupCaseBuilder : QueryBuilder :=
  QueryBuilder.from_str "SELECT * FROM orders" groupCaseQuery

/-- A concrete query model with no filters, used as evaluation input. -/
def emptyQuery : UrlQuery :=
  { filters := []
    group := none
    sort := none
    limit_check := none
    offset_check := none }

/-- A concrete builder over `emptyQuery`. -/
def emptyBuilder : QueryBuilder :=
  QueryBuilder.from_str "SELECT 1" emptyQuery

theorem splitOnceChar_eq_none_iff (sep : Char) (l : List Char) :
    splitOnceChar sep l = none ↔ sep ∉ l := by
  induction l with
  | nil => simp [splitOnceChar]
  | cons c rest ih =>
    by_cases h : c = sep
    · subst h
      simp [splitOnceChar]
    · cases hr : splitOnceChar sep rest with
      | some p =>
        have : sep ∈ rest := by
          by_contra hmem
          rw [ih.mpr hmem] at hr
          exact Option.noConfusion hr
        simp [splitOnceChar, h, hr, List.mem_cons, this]
      | none =>
        have hmem : sep ∉ rest := ih.mp hr
        have hne : sep ≠ c := fun hh => h hh.symm
        simp [splitOnceChar, h, hr, List.mem_cons, hmem, hne]

theorem splitOnceChar_append (sep : Char) (f r : List Char) (hf : sep ∉ f) :
    splitOnceChar sep (f ++ sep :: r) = some (f, r) := by
  induction f with
  | nil => simp [splitOnceChar]
  | cons c cs ih =>
    have hc : ¬ c = sep := by
      intro h
      exact hf (by simp [h])
    have hcs : sep ∉ cs := fun h => hf (List.mem_cons_of_mem _ h)
    simp [splitOnceChar, hc, ih hcs]

theorem splitOnceChar_eq_some (sep : Char) (l f r : List Char)
    (h : splitOnceChar sep l = some (f, r)) : l = f ++ sep :: r ∧ sep ∉ f := by
  induction l generalizing f r with
  | nil => simp [splitOnceChar] at h
  | cons c rest ih =>
    by_cases hc : c = sep
    · subst hc
      simp [splitOnceChar] at h
      obtain ⟨hf, hr⟩ := h
      subst hf hr
      simp
    · cases hr : splitOnceChar sep rest with
      | none =>
        simp [splitOnceChar, hc, hr] at h
      | some p =>
        obtain ⟨a, b⟩ := p
        simp [splitOnceChar, hc, hr] at h
        obtain ⟨hf, hb⟩ := h
        obtain ⟨hrest, hmem⟩ := ih a b hr
        subst hf hb hrest
        constructor
        · simp
        · intro hin
          rcases List.mem_cons.mp hin with h1 | h1
          · exact hc h1.symm
          · exact hmem h1

theorem string_data_ext (a b : String) (h : a.data = b.data) : a = b := by
  cases a
  cases b
  simp_all

theorem sortdir_new_eq_of_split_none (s : String)
    (h : splitOnceChar '-' s.data = none) :
    SortDir.new s = .error .InvalidSort := by
  unfold SortDir.new
  rw [h]

theorem sortdir_new_eq_of_split_some (s : String) (f r : List Char)
    (h : splitOnceChar '-' s.data = some (f, r)) :
    SortDir.new s =
      match SortBy.from_str (String.mk r) with
      | .error e => .error e
      | .ok sb => .ok ⟨String.mk f, sb⟩ := by
  unfold SortDir.new
  rw [h]

/-- C6: `Sort::new` fails with `InvalidSort` exactly when the input has no
hyphen; otherwise it splits at the first hyphen (the part before it is
hyphen-free) and fails with `InvalidSortBy` exactly when the part after
that hyphen is not the exact lowercase string "asc" or "desc".  No
trimming or field validation occurs: the characterization holds for every
input string as-is. -/
theorem sortdir_parse_error_characterization (s : String) :
    (SortDir.new s = Except.error ParseError.InvalidSort ↔ '-' ∉ s.data)
    ∧ (∀ f r : List Char, s.data = f ++ '-' :: r → '-' ∉ f →
        (SortDir.new s = Except.error ParseError.InvalidSortBy ↔
          (String.mk r ≠ "asc" ∧ String.mk r ≠ "desc"))) := by
  constructor
  · cases hsp : splitOnceChar '-' s.data with
    | none =>
      have h1 := sortdir_new_eq_of_split_none s hsp
      have h2 := (splitOnceChar_eq_none_iff '-' s.data).mp hsp
      exact ⟨fun _ => h2, fun _ => h1⟩
    | some p =>
      obtain ⟨f, r⟩ := p
      have hmem : '-' ∈ s.data := by
        obtain ⟨hdata, _⟩ := splitOnceChar_eq_some '-' s.data f r hsp
        rw [hdata]
        simp
      have h1 := sortdir_new_eq_of_split_some s f r hsp
      constructor
      · intro h
        rw [h1] at h
        unfold SortBy.from_str at h
        by_cases ha : String.mk r = "asc"
        · simp [ha] at h
        · by_cases hd : String.mk r = "desc"
          · simp [ha, hd] at h
          · simp [ha, hd] at h
      · intro h
        exact absurd hmem h
  · intro f r hdata hf
    have hsp : splitOnceChar '-' s.data = some (f, r) := by
      rw [hdata]
      exact splitOnceChar_append '-' f r hf
    rw [sortdir_new_eq_of_split_some s f r hsp]
    unfold SortBy.from_str
    by_cases ha : String.mk r = "asc"
    · simp [ha]
    · by_cases hd : String.mk r = "desc"
      · simp [ha, hd]
      · simp [ha, hd]

theorem sortdir_parse_error_characterization_witness :
    SortDir.new "price" = Except.error ParseError.InvalidSort
    ∧ SortDir.new "price-up" = Except.error ParseError.InvalidSortBy := by
  constructor
  · exact ((sortdir_parse_error_characterization "price").1).mpr (by decide)
  · exact ((sortdir_parse_error_characterization "price-up").2
      ("price").data ("up").data rfl (by decide)).mpr (by decide)

/-- C7: for every hyphen-free field `f`, parsing `f-asc` (resp. `f-desc`)
succeeds with the field unchanged, and rendering via `to_string`
(RenderPlain) yields exactly `f ASC` (resp. `f DESC`). -/
theorem sortdir_parse_then_render_plain (f : String) (h : '-' ∉ f.data) :
    SortDir.new (f ++ "-asc") = Except.ok ⟨f, SortBy.ASC⟩
    ∧ SortDir.new (f ++ "-desc") = Except.ok ⟨f, SortBy.DESC⟩
    ∧ (SortDir.mk f SortBy.ASC).to_string = f ++ " ASC"
    ∧ (SortDir.mk f SortBy.DESC).to_string = f ++ " DESC" := by
  refine ⟨?_, ?_, ?_, ?_⟩
  · have hsp : splitOnceChar '-' (f ++ "-asc").data = some (f.data, ("asc").data) := by
      rw [String.data_append]
      exact splitOnceChar_append '-' f.data (("asc").data) h
    rw [sortdir_new_eq_of_split_some (f ++ "-asc") f.data (("asc").data) hsp]
    rfl
  · have hsp : splitOnceChar '-' (f ++ "-desc").data = some (f.data, ("desc").data) := by
      rw [String.data_append]
      exact splitOnceChar_append '-' f.data (("desc").data) h
    rw [sortdir_new_eq_of_split_some (f ++ "-desc") f.data (("desc").data) hsp]
    rfl
  · show "" ++ f ++ " " ++ "ASC" = f ++ " ASC"
    have h0 : "" ++ f = f := rfl
    rw [h0, String.append_assoc]
    rfl
  · show "" ++ f ++ " " ++ "DESC" = f ++ " DESC"
    have h0 : "" ++ f = f := rfl
    rw [h0, String.append_assoc]
    rfl

theorem sortdir_parse_then_render_plain_witness :
    SortDir.new ("price" ++ "-asc") = Except.ok ⟨"price", SortBy.ASC⟩
    ∧ SortDir.new ("price" ++ "-desc") = Except.ok ⟨"price", SortBy.DESC⟩
    ∧ (SortDir.mk "price" SortBy.ASC).to_string = "price" ++ " ASC"
    ∧ (SortDir.mk "price" SortBy.DESC).to_string = "price" ++ " DESC" :=
  sortdir_parse_then_render_plain "price" (by decide)

/-- C8 counterexample: parsing `-asc` succeeds and produces a directive
whose field is the empty string, refuting the claim that every
successfully constructed directive has a non-empty field. -/
theorem sortdir_empty_field_counterexample :
    SortDir.new "-asc" = Except.ok ⟨"", SortBy.ASC⟩ ∧ ("" : String).data = [] :=
  ⟨rfl, rfl⟩

/-- C8 (amended): for every successfully constructed Sort Directive, the
field is the possibly-empty, hyphen-free part of the input before the
first hyphen (it is empty exactly when the input starts with a hyphen). -/
theorem sortdir_field_is_first_segment (s : String) (srt : SortDir)
    (h : SortDir.new s = Except.ok srt) :
    '-' ∉ srt.field.data ∧ ∃ r : List Char, s.data = srt.field.data ++ '-' :: r := by
  cases hsp : splitOnceChar '-' s.data with
  | none =>
    rw [sortdir_new_eq_of_split_none s hsp] at h
    exact absurd h (by simp)
  | some p =>
    obtain ⟨f, r⟩ := p
    obtain ⟨hdata, hmem⟩ := splitOnceChar_eq_some '-' s.data f r hsp
    rw [sortdir_new_eq_of_split_some s f r hsp] at h
    cases hfs : SortBy.from_str (String.mk r) with
    | error e =>
      rw [hfs] at h
      exact absurd h (by simp)
    | ok sb =>
      rw [hfs] at h
      have hsrt : SortDir.mk (String.mk f) sb = srt := by
        simpa using h
      subst hsrt
      exact ⟨hmem, ⟨r, hdata⟩⟩

theorem sortdir_field_is_first_segment_witness :
    '-' ∉ (SortDir.mk "price" SortBy.ASC).field.data
    ∧ ∃ r : List Char,
        ("price-asc").data = (SortDir.mk "price" SortBy.ASC).field.data ++ '-' :: r :=
  sortdir_field_is_first_segment "price-asc" (SortDir.mk "price" SortBy.ASC) rfl

theorem string_append_ne_empty_left (a b : String) (ha : a.data ≠ []) : a ++ b ≠ "" := by
  intro hc
  have hd := congrArg String.data hc
  rw [String.data_append] at hd
  exact ha (List.append_eq_nil.mp hd).1

theorem whereLoop_eq (b : QueryBuilder) (fs : List Filter) (fv : List String)
    (args : List (String × String)) :
    whereLoop b fs fv args =
      (fv ++ renderFilters b args.length fs,
       args ++ fs.map (fun f => (f.field, f.value))) := by
  induction fs generalizing fv args with
  | nil => simp [whereLoop, renderFilters]
  | cons f rest ih =>
    simp [whereLoop, renderFilters, ih, List.append_assoc]

theorem renderFilters_length (b : QueryBuilder) (k : Nat) (fs : List Filter) :
    (renderFilters b k fs).length = fs.length := by
  induction fs generalizing k with
  | nil => simp [renderFilters]
  | cons f rest ih => simp [renderFilters, ih]

theorem renderFilters_get (b : QueryBuilder) (k n : Nat) (fs : List Filter) (f : Filter)
    (h : fs[n]? = some f) :
    (renderFilters b k fs)[n]? = some (f.to_sql_map_table (k + n + b.shift_bind + 1)
        (mapGet b.map_columns f.field) b.convert_case b.database) := by
  induction fs generalizing k n with
  | nil => simp at h
  | cons g rest ih =>
    cases n with
    | zero =>
      simp at h
      subst h
      simp [renderFilters]
    | succ m =>
      simp at h
      have hm := ih (k + 1) m h
      have harith : k + 1 + m = k + (m + 1) := by omega
      rw [harith] at hm
      simp [renderFilters, hm]

theorem append_where_fst (b : QueryBuilder) :
    (b.append_where).1 = { b with sql := b.sql ++ whereClause b } := by
  simp only [QueryBuilder.append_where, whereLoop_eq]
  cases hfs : b.url_query.filters with
  | nil =>
    simp [renderFilters, whereClause, QueryBuilder.whereList, hfs]
  | cons g gs =>
    simp [renderFilters, whereClause, QueryBuilder.whereList, hfs, String.append_assoc]

theorem append_where_snd (b : QueryBuilder) :
    (b.append_where).2 = b.url_query.filters.map (fun f => (f.field, f.value)) := by
  simp only [QueryBuilder.append_where, whereLoop_eq]
  split <;> simp

theorem append_group_eq (b : QueryBuilder) :
    b.append_group = { b with sql := b.sql ++ groupClause b } := by
  unfold QueryBuilder.append_group groupClause
  cases hg : b.url_query.group with
  | none => simp
  | some g =>
    cases hm : mapGet b.map_columns g with
    | none =>
      cases hc : b.convert_case with
      | none => simp [hm, hc, String.append_assoc]
      | some c => simp [hm, hc, String.append_assoc]
    | some t =>
      cases hc : b.convert_case with
      | none => simp [hm, hc, String.append_assoc]
      | some c => simp [hm, hc, String.append_assoc]

theorem append_sort_eq (b : QueryBuilder) :
    b.append_sort = { b with sql := b.sql ++ sortClause b } := by
  unfold QueryBuilder.append_sort sortClause
  cases hs : b.url_query.sort with
  | none => simp
  | some srt => simp [String.append_assoc]

theorem sql_update (b : QueryBuilder) (s : String) :
    ({ b with sql := s } : QueryBuilder).sql = s := rfl

theorem url_query_update (b : QueryBuilder) (s : String) :
    ({ b with sql := s } : QueryBuilder).url_query = b.url_query := rfl

theorem groupClause_update (b : QueryBuilder) (s : String) :
    groupClause { b with sql := s } = groupClause b := rfl

theorem sortClause_update (b : QueryBuilder) (s : String) :
    sortClause { b with sql := s } = sortClause b := rfl

theorem build_eq (b : QueryBuilder) :
    b.build = (b.sql ++ whereClause b ++ groupClause b ++ sortClause b
        ++ limitClause b ++ offsetClause b,
      b.url_query.filters.map (fun f => (f.field, f.value))) := by
  simp only [QueryBuilder.build]
  rw [append_where_fst, append_where_snd, append_group_eq, append_sort_eq]
  simp only [groupClause_update, sortClause_update, url_query_update, sql_update,
    UrlQuery.check_limit, UrlQuery.check_offset]
  cases hl : b.url_query.limit_check with
  | none =>
    simp [limitClause, offsetClause, hl, UrlQuery.check_limit, UrlQuery.check_offset,
      String.append_assoc]
  | some limit =>
    cases ho : b.url_query.offset_check with
    | none =>
      simp [limitClause, offsetClause, hl, ho, UrlQuery.check_limit, UrlQuery.check_offset,
        append_limit, String.append_assoc]
    | some off =>
      simp [limitClause, offsetClause, hl, ho, UrlQuery.check_limit, UrlQuery.check_offset,
        append_limit, append_offset, String.append_assoc]

/-- C1: for every builder state (hence for every sequence of
configuration calls producing it), the SQL text `build` returns is the
seed text followed by the WHERE, GROUP BY, ORDER BY, LIMIT and OFFSET
fragments in exactly that order, and each fragment is non-empty exactly
when its input is present. -/
theorem build_clause_order (b : QueryBuilder) :
    (b.build).1 = b.sql ++ whereClause b ++ groupClause b ++ sortClause b
        ++ limitClause b ++ offsetClause b
    ∧ (whereClause b ≠ "" ↔ b.url_query.filters ≠ [])
    ∧ (groupClause b ≠ "" ↔ b.url_query.group ≠ none)
    ∧ (sortClause b ≠ "" ↔ b.url_query.sort ≠ none)
    ∧ (limitClause b ≠ "" ↔ b.url_query.check_limit ≠ none)
    ∧ (offsetClause b ≠ ""
        ↔ (b.url_query.check_limit ≠ none ∧ b.url_query.check_offset ≠ none)) := by
  refine ⟨by rw [build_eq], ?_, ?_, ?_, ?_, ?_⟩
  · unfold whereClause
    cases hfs : b.url_query.filters with
    | nil => simp
    | cons g gs =>
      constructor
      · intro _
        simp
      · intro _
        rw [if_neg (by simp)]
        exact string_append_ne_empty_left _ _ (by decide)
  · unfold groupClause
    cases hg : b.url_query.group with
    | none => simp
    | some g =>
      constructor
      · intro _
        simp
      · intro _
        exact string_append_ne_empty_left _ _ (by decide)
  · unfold sortClause
    cases hs : b.url_query.sort with
    | none => simp
    | some srt =>
      constructor
      · intro _
        simp
      · intro _
        exact string_append_ne_empty_left _ _ (by decide)
  · unfold limitClause UrlQuery.check_limit
    cases hl : b.url_query.limit_check with
    | none => simp
    | some l =>
      constructor
      · intro _
        simp
      · intro _
        exact string_append_ne_empty_left _ _ (by decide)
  · unfold offsetClause UrlQuery.check_limit UrlQuery.check_offset
    cases hl : b.url_query.limit_check with
    | none => simp
    | some l =>
      cases ho : b.url_query.offset_check with
      | none => simp
      | some o =>
        constructor
        · intro _
          simp
        · intro _
          exact string_append_ne_empty_left _ _ (by decide)

/-- C2: the bind position passed for the filter at 0-based index `n`
(the `N = n + 1`-st filter in model order) is `n + shift_bind + 1
= N + shift_bind`; under Postgres its rendered predicate ends in
`"$" + (N + shift_bind)`, under MySQL in `"?"`; and when filters exist
the rendered predicates are what `append_where` splices into the SQL
after `" WHERE "`. -/
theorem where_bind_positions (b : QueryBuilder) (n : Nat) (f : Filter)
    (h : b.url_query.filters[n]? = some f) :
    b.whereList[n]? = some (f.to_sql_map_table (n + b.shift_bind + 1)
        (mapGet b.map_columns f.field) b.convert_case b.database)
    ∧ (∀ m, placeholderFor Database.Postgres m = "$" ++ toString m)
    ∧ (∀ m, placeholderFor Database.MySQL m = "?")
    ∧ (b.database = Database.Postgres →
        ∃ pre, b.whereList[n]? = some (pre ++ ("$" ++ toString (n + 1 + b.shift_bind))))
    ∧ (b.database = Database.MySQL →
        ∃ pre, b.whereList[n]? = some (pre ++ "?"))
    ∧ (b.url_query.filters ≠ [] →
        (b.append_where).1.sql = b.sql ++ " WHERE " ++ joinStr " AND " b.whereList) := by
  have h1 : b.whereList[n]? = some (f.to_sql_map_table (n + b.shift_bind + 1)
      (mapGet b.map_columns f.field) b.convert_case b.database) := by
    have hr := renderFilters_get b 0 n b.url_query.filters f h
    simpa [QueryBuilder.whereList] using hr
  refine ⟨h1, fun m => rfl, fun m => rfl, ?_, ?_, ?_⟩
  · intro hp
    refine ⟨(match mapGet b.map_columns f.field with
             | some t => t ++ "."
             | none => "") ++
            (match b.convert_case with
             | some c => c f.field
             | none => snakeCase f.field) ++ " " ++ f.op ++ " ", ?_⟩
    rw [show n + 1 + b.shift_bind = n + b.shift_bind + 1 by omega]
    rw [hp] at h1
    exact h1
  · intro hp
    refine ⟨(match mapGet b.map_columns f.field with
             | some t => t ++ "."
             | none => "") ++
            (match b.convert_case with
             | some c => c f.field
             | none => snakeCase f.field) ++ " " ++ f.op ++ " ", ?_⟩
    rw [hp] at h1
    exact h1
  · intro hne
    rw [append_where_fst, sql_update]
    unfold whereClause
    rw [if_neg (by simp [hne]), String.append_assoc]

theorem where_bind_positions_witness :
    egBuilder.whereList[1]? = some ((Filter.mk "id" "=" "2").to_sql_map_table
        (1 + egBuilder.shift_bind + 1)
        (mapGet egBuilder.map_columns "id") egBuilder.convert_case egBuilder.database)
    ∧ (∀ m, placeholderFor Database.Postgres m = "$" ++ toString m)
    ∧ (∀ m, placeholderFor Database.MySQL m = "?")
    ∧ (egBuilder.database = Database.Postgres →
        ∃ pre, egBuilder.whereList[1]?
          = some (pre ++ ("$" ++ toString (1 + 1 + egBuilder.shift_bind))))
    ∧ (egBuilder.database = Database.MySQL →
        ∃ pre, egBuilder.whereList[1]? = some (pre ++ "?"))
    ∧ (egBuilder.url_query.filters ≠ [] →
        (egBuilder.append_where).1.sql
          = egBuilder.sql ++ " WHERE " ++ joinStr " AND " egBuilder.whereList) :=
  where_bind_positions egBuilder 1 (Filter.mk "id" "=" "2") rfl

/-- C3: `append_where` returns exactly the filters' `(field, value)`
pairs in model order; it appends `" WHERE "` plus the `" AND "`-joined
predicates iff the filter list is non-empty, mutating nothing when it is
empty; and the argument list `build` returns has length equal to the
number of filters regardless of group, sort, limit or offset. -/
theorem append_where_characterization (b : QueryBuilder) :
    (b.append_where).2 = b.url_query.filters.map (fun f => (f.field, f.value))
    ∧ (b.append_where).1 = { b with sql := b.sql ++ whereClause b }
    ∧ (b.url_query.filters ≠ [] →
        (b.append_where).1.sql = b.sql ++ " WHERE " ++ joinStr " AND " b.whereList)
    ∧ (b.url_query.filters = [] → b.append_where = (b, []))
    ∧ (b.build).2.length = b.url_query.filters.length := by
  refine ⟨append_where_snd b, append_where_fst b, ?_, ?_, ?_⟩
  · intro hne
    rw [append_where_fst, sql_update]
    unfold whereClause
    rw [if_neg (by simp [hne]), String.append_assoc]
  · intro hempty
    simp [QueryBuilder.append_where, hempty, whereLoop_eq, renderFilters]
  · rw [build_eq]
    simp

theorem append_where_characterization_witness :
    ((egBuilder.append_where).1.sql
        = egBuilder.sql ++ " WHERE " ++ joinStr " AND " egBuilder.whereList)
    ∧ emptyBuilder.append_where = (emptyBuilder, []) :=
  ⟨(append_where_characterization egBuilder).2.2.1 (by decide),
   (append_where_characterization emptyBuilder).2.2.2.1 rfl⟩

/-- C4: `build` appends `" LIMIT <limit>"` exactly when the limit check
succeeds, and `" OFFSET <offset>"` exactly when both the limit and the
offset check succeed — never an OFFSET without a LIMIT — and a failed
check surfaces no error: the clause is simply the empty fragment and
`build` still returns. -/
theorem build_limit_offset_gating (b : QueryBuilder) :
    (b.build).1 = (((b.append_where).1.append_group).append_sort).sql
        ++ limitClause b ++ offsetClause b
    ∧ (limitClause b ≠ "" ↔ b.url_query.check_limit ≠ none)
    ∧ (offsetClause b ≠ ""
        ↔ (b.url_query.check_limit ≠ none ∧ b.url_query.check_offset ≠ none))
    ∧ (∀ l, b.url_query.check_limit = some l → limitClause b = " LIMIT " ++ l)
    ∧ (∀ l o, b.url_query.check_limit = some l → b.url_query.check_offset = some o →
        offsetClause b = " OFFSET " ++ o)
    ∧ (b.url_query.check_limit = none → offsetClause b = "") := by
  refine ⟨?_, ?_, ?_, ?_, ?_, ?_⟩
  · rw [build_eq, append_where_fst, append_group_eq, append_sort_eq]
    simp only [groupClause_update, sortClause_update, sql_update]
  · unfold limitClause UrlQuery.check_limit
    cases hl : b.url_query.limit_check with
    | none => simp
    | some l =>
      constructor
      · intro _
        simp
      · intro _
        exact string_append_ne_empty_left _ _ (by decide)
  · unfold offsetClause UrlQuery.check_limit UrlQuery.check_offset
    cases hl : b.url_query.limit_check with
    | none => simp
    | some l =>
      cases ho : b.url_query.offset_check with
      | none => simp
      | some o =>
        constructor
        · intro _
          simp
        · intro _
          exact string_append_ne_empty_left _ _ (by decide)
  · intro l hl
    unfold limitClause
    rw [hl]
  · intro l o hl ho
    unfold offsetClause
    rw [hl, ho]
  · intro hl
    unfold offsetClause
    rw [hl]

theorem build_limit_offset_gating_witness :
    limitClause egBuilder = " LIMIT " ++ "10"
    ∧ offsetClause egBuilder = " OFFSET " ++ "0"
    ∧ offsetClause emptyBuilder = "" :=
  ⟨(build_limit_offset_gating egBuilder).2.2.2.1 "10" rfl,
   (build_limit_offset_gating egBuilder).2.2.2.2.1 "10" "0" rfl rfl,
   (build_limit_offset_gating emptyBuilder).2.2.2.2.2 rfl⟩

/-- C5 (code-bug evidence): with no explicit case-conversion mode, the
same builder emits the ORDER BY field snake_cased (`created_at`) but the
GROUP BY field unconverted (`userId`): `append_group` passes the
identifier through raw when `convert_case` is unset (`src/sql.rs` line
159), while `Sort::to_sql` defaults to snake_case (`src/sort.rs` line
38), so the claimed uniform snake_case default fails on the GROUP BY
path. -/
theorem default_case_inconsistency :
    groupCaseBuilder.convert_case = none
    ∧ (groupCaseBuilder.build).1
        = "SELECT * FROM orders GROUP BY userId ORDER BY created_at DESC"
    ∧ snakeCase "userId" = "user_id"
    ∧ (SortDir.mk "createdAt" SortBy.DESC).to_sql_map_table none none
        = "created_at DESC" :=
  ⟨rfl, rfl, rfl, rfl⟩

/-- C9: `gen_sql_select` seeds the SQL as
`SELECT <columns joined by ", "> FROM <table>`, `QueryBuilder::new` uses
it verbatim, and the empty column list is not rejected: it yields the
degenerate `SELECT  FROM <table>` (two spaces). -/
theorem gen_sql_select_characterization (table : String) (columns : List String)
    (q : UrlQuery) :
    gen_sql_select table columns = "SELECT " ++ joinStr ", " columns ++ " FROM " ++ table
    ∧ (QueryBuilder.new table columns q).sql = gen_sql_select table columns
    ∧ gen_sql_select table [] = "SELECT  FROM " ++ table := by
  refine ⟨rfl, rfl, ?_⟩
  have h : ("SELECT " ++ joinStr ", " ([] : List String)) ++ " FROM " = "SELECT  FROM " := by
    decide
  exact congrArg (fun s => s ++ table) h

/-- C10: the bind-argument pairs returned by `build` are the filters'
original `(field, value)` strings copied verbatim, for every configured
case-conversion mode — the case mode affects only the SQL text, never
the argument list. -/
theorem bind_args_verbatim (b : QueryBuilder) :
    (b.build).2 = b.url_query.filters.map (fun f => (f.field, f.value))
    ∧ (∀ cm : Option Case,
        (({ b with convert_case := cm } : QueryBuilder).build).2
          = b.url_query.filters.map (fun f => (f.field, f.value))) := by
  constructor
  · rw [build_eq]
  · intro cm
    rw [build_eq]

end Query
